import Mathlib

/-!
Verification of `Lib/asyncio/io_uring.py` against its specification.

The visible source is a two-line wrapper forwarding a path to the native
`IOUring` constructor of the extension module `_asynciouring`, which is not
part of the repository.  The wrapper is embedded as a higher-order function
over the constructor.  The asynchronous file I/O engine underneath it is
absent from the source, so it is modelled from the specification: an
io_uring-style submission/completion queue engine over a single descriptor.
Bytes are modelled as natural numbers, file contents as lists of bytes.
-/

namespace IoUringSpec

/-- Error taxonomy of the engine (spec section 7). -/
inductive ErrKind
  | notFound
  | permissionDenied
  | tooManyOpenFiles
  | alreadyClosed
  | ioError
  | queueFull
  | timedOut
  | cancelled
  deriving DecidableEq, Repr

/-- Open-time failures: the spec's contract for `open` is
NotFound / PermissionDenied / TooManyOpenFiles. -/
inductive OpenErr
  | notFound
  | permissionDenied
  | tooManyOpenFiles
  deriving DecidableEq, Repr

/-- Embedding of an open-time failure into the full taxonomy. -/
def OpenErr.toErrKind : OpenErr → ErrKind
  | .notFound => .notFound
  | .permissionDenied => .permissionDenied
  | .tooManyOpenFiles => .tooManyOpenFiles

/-- Operation kind of a Request (spec section 3): Read with a requested
length, or Write ("print") with the data to write. -/
inductive OpKind
  | read (len : Nat)
  | write (data : List Nat)
  deriving DecidableEq, Repr

/-- A Request as in the spec data model: a sequence number, monotonic per
descriptor, and the operation; it executes at the descriptor's current
offset. -/
structure Request where
  seq : Nat
  op : OpKind
  deriving DecidableEq, Repr

/-- Outcome of a finished operation: Ok (data read or count written)
or Err (error kind). -/
inductive Outcome
  | okBytes (data : List Nat)
  | okCount (n : Nat)
  | err (e : ErrKind)
  deriving DecidableEq, Repr

/-- A Result as in the spec data model, matched to its Request by
sequence number. -/
structure Result where
  seq : Nat
  outcome : Outcome
  deriving DecidableEq, Repr

/-- Descriptor lifecycle state (spec section 3). -/
inductive DescState
  | opened
  | closedSt
  deriving DecidableEq, Repr

/-- Modelled from the spec: the state of one descriptor together with its
ring engine — file content, current offset, device capacity, per-descriptor
monotonic sequence counter, submission queue, completion queue, the set of
sequence numbers whose results are to be discarded (timed-out awaits), and
the descriptor lifecycle state.  The native engine lives in the opaque
extension module `_asynciouring` and is absent from the source. -/
structure Engine where
  path : String
  content : List Nat
  offset : Nat
  cap : Nat
  nextSeq : Nat
  sq : List Request
  cq : List Result
  discarded : List Nat
  dstate : DescState
  deriving DecidableEq, Repr

/-- Read up to `len` bytes of `content` starting at `offset`
(short read at end of file). -/
def readAt (content : List Nat) (offset len : Nat) : List Nat :=
  (content.drop offset).take len

/-- Write `data` into `content` at `offset`, bounded by the device capacity
`cap`; returns the new content and the count of bytes actually written
(a short write when `offset + data.length` exceeds `cap`). -/
def writeCapped (cap : Nat) (content : List Nat) (offset : Nat)
    (data : List Nat) : List Nat × Nat :=
  let n := min data.length (cap - offset)
  (content.take offset ++ data.take n ++ content.drop (offset + n), n)

/-- Modelled from the spec: execute one operation against the file state.
Reads resolve to the bytes read, writes ("print") to the count of bytes
written; each advances the offset by the bytes actually transferred.
Returns the outcome, the new content and the new offset. -/
def execOp (cap : Nat) (content : List Nat) (offset : Nat) :
    OpKind → Outcome × List Nat × Nat
  | .read len =>
      let data := readAt content offset len
      (.okBytes data, content, offset + data.length)
  | .write data =>
      let w := writeCapped cap content offset data
      (.okCount w.2, w.1, offset + w.2)

/-- Modelled from the spec: the dispatch loop handles one Request: a fault
injected by the execution facility yields an Err outcome, otherwise the
operation executes; the Result is posted to the completion queue unless the
sequence number was discarded by a timed-out await, in which case it is
dropped without error. -/
def stepOne (faults : Nat → Option ErrKind) (r : Request) (e : Engine) :
    Engine :=
  let out :=
    match faults r.seq with
    | some k => (Outcome.err k, e.content, e.offset)
    | none => execOp e.cap e.content e.offset r.op
  { e with
    content := out.2.1
    offset := out.2.2
    cq := if r.seq ∈ e.discarded then e.cq else e.cq ++ [⟨r.seq, out.1⟩] }

/-- Modelled from the spec: the dispatch loop drains a list of pending
Requests in FIFO order. -/
def drainFrom (faults : Nat → Option ErrKind) :
    List Request → Engine → Engine
  | [], e => e
  | r :: rest, e => drainFrom faults rest (stepOne faults r e)

/-- Modelled from the spec: drain the whole submission queue. -/
def drain (faults : Nat → Option ErrKind) (e : Engine) : Engine :=
  drainFrom faults e.sq { e with sq := [] }

/-- Modelled from the spec: let the engine process the first `n` pending
Requests (one unit of time per Request). -/
def drainSteps (faults : Nat → Option ErrKind) (n : Nat) (e : Engine) :
    Engine :=
  drainFrom faults (e.sq.take n) { e with sq := e.sq.drop n }

/-- Modelled from the spec: `enqueue(request) -> sequence_number`; the
Request receives the descriptor's next sequence number, is appended to the
submission queue, and the counter advances. -/
def submit (e : Engine) (op : OpKind) : Engine × Nat :=
  ({ e with nextSeq := e.nextSeq + 1, sq := e.sq ++ [⟨e.nextSeq, op⟩] },
   e.nextSeq)

/-- Submit a list of operations in order. -/
def submitAll (e : Engine) : List OpKind → Engine
  | [] => e
  | op :: ops => submitAll (submit e op).1 ops

/-- Modelled from the spec: `close(descriptor)`; the first call succeeds and
moves the descriptor to the closed state, a second call fails with
AlreadyClosed. -/
def close (e : Engine) : Except ErrKind Engine :=
  match e.dstate with
  | .opened => .ok { e with dstate := .closedSt }
  | .closedSt => .error .alreadyClosed

/-- Look up the Result matching a sequence number in the completion
queue. -/
def findResult (e : Engine) (s : Nat) : Option Result :=
  e.cq.find? (fun r => r.seq == s)

/-- Outcome of an `await` call. -/
inductive AwaitRes
  | delivered (r : Result)
  | timedOut
  deriving DecidableEq, Repr

/-- Modelled from the spec: `await(sequence_number)` with an optional
duration: the engine runs for `dur` time units while the caller waits; if
the matching Result has been posted it is delivered, otherwise the await
fails with TimedOut, leaving the queues untouched and only marking the
sequence number so that a later completion is discarded without error. -/
def awaitTimeout (faults : Nat → Option ErrKind) (e : Engine)
    (s dur : Nat) : AwaitRes × Engine :=
  let e₁ := drainSteps faults dur e
  match findResult e₁ s with
  | some r => (.delivered r, e₁)
  | none => (.timedOut, { e₁ with discarded := s :: e₁.discarded })

/-- A freshly opened descriptor: empty queues, offset zero. -/
def initEngine (path : String) (content : List Nat) (cap : Nat) : Engine :=
  { path := path
    content := content
    offset := 0
    cap := cap
    nextSeq := 0
    sq := []
    cq := []
    discarded := []
    dstate := .opened }

/-- Modelled from the spec: the native `IOUring` constructor of the opaque
extension module `_asynciouring`, absent from the source.  Per the spec,
open-time failures (NotFound, PermissionDenied, TooManyOpenFiles) surface
synchronously; on success the descriptor handle is created.  The
filesystem is a parameter mapping a path to its content or an open-time
failure. -/
def IOUring (fs : String → Except OpenErr (List Nat)) (cap : Nat)
    (path : String) : Except ErrKind Engine :=
  match fs path with
  | .error k => .error k.toErrKind
  | .ok content => .ok (initEngine path content cap)

/-- `io_uring_open` from `Lib/asyncio/io_uring.py`: the body is exactly
`return IOUring(path)`.  The native constructor is a parameter, since the
extension module is external to the source; the wrapper is polymorphic in
the argument because it performs no validation or coercion of its own. -/
def io_uring_open {α β : Type} (IOUring : α → β) (path : α) : β :=
  IOUring path

/-- The calls the wrapper makes to external code. -/
inductive WrapperCall (α : Type)
  | callIOUring (arg : α)
  deriving DecidableEq

/-- Trace of external calls made by one run of `io_uring_open`: exactly one
call to the native constructor, with the argument forwarded unchanged. -/
def io_uring_open_calls {α : Type} (path : α) : List (WrapperCall α) :=
  [WrapperCall.callIOUring path]

/-- State-passing form of the wrapper: the ambient state `s` is threaded
only through the constructor; the wrapper itself reads and mutates
nothing. -/
def io_uring_open_st {σ α β : Type} (IOUring : σ → α → β × σ) (s : σ)
    (path : α) : β × σ :=
  IOUring s path

/-- A sample filesystem for concrete runs: one file `data.bin` holding the
bytes of `hello`; every other path is NotFound. -/
def sampleFS : String → Except OpenErr (List Nat) :=
  fun p => if p = "data.bin" then .ok [104, 101, 108, 108, 111]
           else .error .notFound

/-- A freshly opened sample descriptor. -/
def sampleEngine : Engine :=
  initEngine "data.bin" [104, 101, 108, 108, 111] 16

/-- A sample fault model: the request with sequence number 0 fails with
IOError, everything else succeeds. -/
def sampleFaults : Nat → Option ErrKind :=
  fun s => if s = 0 then some .ioError else none

/-- A sample descriptor with two pending read requests already submitted. -/
def sampleE8 : Engine :=
  { path := "data.bin"
    content := [7, 8]
    offset := 0
    cap := 4
    nextSeq := 2
    sq := [⟨0, .read 1⟩, ⟨1, .read 1⟩]
    cq := []
    discarded := []
    dstate := .opened }

/-! ## Helper lemmas about the engine -/

theorem stepOne_discarded (f : Nat → Option ErrKind) (r : Request)
    (e : Engine) : (stepOne f r e).discarded = e.discarded := rfl

theorem drainFrom_discarded (f : Nat → Option ErrKind) (l : List Request) :
    ∀ e : Engine, (drainFrom f l e).discarded = e.discarded := by
  induction l with
  | nil => intro e; rfl
  | cons r rest ih =>
    intro e
    rw [drainFrom, ih (stepOne f r e), stepOne_discarded]

theorem stepOne_cq_of_nil (f : Nat → Option ErrKind) (r : Request)
    (e : Engine) (h : e.discarded = []) :
    ∃ out, (stepOne f r e).cq = e.cq ++ [⟨r.seq, out⟩] := by
  refine ⟨(match f r.seq with
    | some k => (Outcome.err k, e.content, e.offset)
    | none => execOp e.cap e.content e.offset r.op).1, ?_⟩
  simp [stepOne, h]

theorem mem_cq_stepOne (f : Nat → Option ErrKind) (r : Request)
    (e : Engine) (x : Result) (hx : x ∈ e.cq) :
    x ∈ (stepOne f r e).cq := by
  by_cases hd : r.seq ∈ e.discarded <;> simp [stepOne, hd, hx]

theorem mem_cq_drainFrom (f : Nat → Option ErrKind) (l : List Request) :
    ∀ e : Engine, ∀ x ∈ e.cq, x ∈ (drainFrom f l e).cq := by
  induction l with
  | nil => intro e x hx; exact hx
  | cons r rest ih =>
    intro e x hx
    exact ih (stepOne f r e) x (mem_cq_stepOne f r e x hx)

theorem drainFrom_cq_map (f : Nat → Option ErrKind) (l : List Request) :
    ∀ e : Engine, e.discarded = [] →
      ((drainFrom f l e).cq).map Result.seq
        = e.cq.map Result.seq ++ l.map Request.seq := by
  induction l with
  | nil => intro e _; simp [drainFrom]
  | cons r rest ih =>
    intro e h
    obtain ⟨out, hcq⟩ := stepOne_cq_of_nil f r e h
    rw [drainFrom, ih (stepOne f r e) ((stepOne_discarded f r e).trans h),
      hcq]
    simp

theorem drain_cq_map (f : Nat → Option ErrKind) (e : Engine)
    (h : e.discarded = []) :
    ((drain f e).cq).map Result.seq
      = e.cq.map Result.seq ++ e.sq.map Request.seq := by
  rw [drain, drainFrom_cq_map f e.sq { e with sq := [] } h]

theorem err_result_mem_drainFrom (f : Nat → Option ErrKind) (k : ErrKind)
    (l : List Request) :
    ∀ e : Engine, ∀ r ∈ l, e.discarded = [] → f r.seq = some k →
      (⟨r.seq, .err k⟩ : Result) ∈ (drainFrom f l e).cq := by
  induction l with
  | nil => intro e r hr; exact absurd hr (List.not_mem_nil r)
  | cons a rest ih =>
    intro e r hr h hf
    rcases List.mem_cons.mp hr with hra | hrr
    · subst hra
      refine mem_cq_drainFrom f rest (stepOne f r e) _ ?_
      simp [stepOne, h, hf]
    · exact ih (stepOne f a e) r hrr
        ((stepOne_discarded f a e).trans h) hf

theorem discarded_seq_not_in_drainFrom (f : Nat → Option ErrKind)
    (s : Nat) (l : List Request) :
    ∀ e : Engine, s ∈ e.discarded → (∀ x ∈ e.cq, x.seq ≠ s) →
      ∀ x ∈ (drainFrom f l e).cq, x.seq ≠ s := by
  induction l with
  | nil => intro e _ hcq x hx; exact hcq x hx
  | cons r rest ih =>
    intro e hs hcq x hx
    refine ih (stepOne f r e) ?_ ?_ x hx
    · rw [stepOne_discarded]; exact hs
    · intro y hy
      by_cases hd : r.seq ∈ e.discarded
      · simp only [stepOne, if_pos hd] at hy
        exact hcq y hy
      · simp only [stepOne, if_neg hd, List.mem_append,
          List.mem_singleton] at hy
        rcases hy with hy | hy
        · exact hcq y hy
        · subst hy
          intro hys
          have hrs : r.seq = s := hys
          exact hd (by rw [hrs]; exact hs)

theorem submit_cq (e : Engine) (op : OpKind) :
    (submit e op).1.cq = e.cq := rfl

theorem submit_discarded (e : Engine) (op : OpKind) :
    (submit e op).1.discarded = e.discarded := rfl

theorem submitAll_cq (ops : List OpKind) :
    ∀ e : Engine, (submitAll e ops).cq = e.cq := by
  induction ops with
  | nil => intro e; rfl
  | cons op rest ih =>
    intro e
    rw [submitAll, ih (submit e op).1, submit_cq]

theorem submitAll_discarded (ops : List OpKind) :
    ∀ e : Engine, (submitAll e ops).discarded = e.discarded := by
  induction ops with
  | nil => intro e; rfl
  | cons op rest ih =>
    intro e
    rw [submitAll, ih (submit e op).1, submit_discarded]

theorem submitAll_sq_map (ops : List OpKind) :
    ∀ e : Engine, ((submitAll e ops).sq).map Request.seq
      = e.sq.map Request.seq ++ List.range' e.nextSeq ops.length := by
  induction ops with
  | nil => intro e; simp [submitAll]
  | cons op rest ih =>
    intro e
    rw [submitAll, ih (submit e op).1]
    simp only [submit, List.map_append, List.map_cons, List.map_nil,
      List.length_cons]
    rw [List.range'_succ e.nextSeq rest.length 1]
    simp

/-! ## Claim theorems -/

/-- C1: `open(path)` returns a handle exposing read and print as
asynchronous operations; `io_uring_open` returns the native `IOUring`
object constructed from the path.  On a resolving path the wrapper returns
exactly the constructed descriptor, and submitting a read or write on it
returns a sequence number whose Result the engine later delivers. -/
theorem io_uring_open_gives_handle (fs : String → Except OpenErr (List Nat))
    (cap : Nat) (path : String) (content : List Nat) (op : OpKind)
    (h : fs path = .ok content) :
    io_uring_open (IOUring fs cap) path = .ok (initEngine path content cap) ∧
    (submit (initEngine path content cap) op).2 = 0 ∧
    ((drain (fun _ => none)
        (submit (initEngine path content cap) op).1).cq).map Result.seq
      = [0] := by
  refine ⟨?_, rfl, ?_⟩
  · simp [io_uring_open, IOUring, h]
  · rw [drain_cq_map (fun _ => none)
      (submit (initEngine path content cap) op).1 rfl]
    rfl

theorem io_uring_open_gives_handle_witness :
    io_uring_open (IOUring sampleFS 16) "data.bin"
      = .ok (initEngine "data.bin" [104, 101, 108, 108, 111] 16) ∧
    (submit (initEngine "data.bin" [104, 101, 108, 108, 111] 16)
      (.read 5)).2 = 0 ∧
    ((drain (fun _ => none)
        (submit (initEngine "data.bin" [104, 101, 108, 108, 111] 16)
          (.read 5)).1).cq).map Result.seq = [0] :=
  io_uring_open_gives_handle sampleFS 16 "data.bin"
    [104, 101, 108, 108, 111] (.read 5) rfl

/-- C2: open-time errors (NotFound, PermissionDenied, TooManyOpenFiles)
surface synchronously to the caller of `open`, while errors of read/print
operations surface through the asynchronous Result and are never silently
dropped: a submitted request whose execution faults has its Err Result
posted to the completion queue. -/
theorem open_errors_sync_op_errors_async
    (fs : String → Except OpenErr (List Nat)) (cap : Nat) (path : String)
    (k : OpenErr) (e : Engine) (faults : Nat → Option ErrKind)
    (op : OpKind) (fk : ErrKind)
    (hopen : fs path = .error k)
    (hd : e.discarded = [])
    (hfault : faults (submit e op).2 = some fk) :
    io_uring_open (IOUring fs cap) path = .error k.toErrKind ∧
    (⟨(submit e op).2, .err fk⟩ : Result)
      ∈ (drain faults (submit e op).1).cq := by
  constructor
  · simp [io_uring_open, IOUring, hopen]
  · rw [drain]
    refine err_result_mem_drainFrom faults fk (submit e op).1.sq
      { (submit e op).1 with sq := [] } ⟨(submit e op).2, op⟩ ?_ hd hfault
    simp [submit]

theorem open_errors_sync_op_errors_async_witness :
    io_uring_open (IOUring sampleFS 16) "missing.txt"
      = .error OpenErr.notFound.toErrKind ∧
    (⟨(submit sampleEngine (.read 5)).2, .err .ioError⟩ : Result)
      ∈ (drain sampleFaults (submit sampleEngine (.read 5)).1).cq :=
  open_errors_sync_op_errors_async sampleFS 16 "missing.txt" .notFound
    sampleEngine sampleFaults (.read 5) .ioError rfl rfl rfl

/-- C3: for every sequence of read/print operations submitted on one
handle, the completion order observed in the completion queue equals the
submission order: the sequence numbers delivered by draining the engine
are exactly the sequence numbers of the submission queue, in the same
order (per-descriptor FIFO). -/
theorem fifo_completion (faults : Nat → Option ErrKind)
    (ops : List OpKind) (e : Engine)
    (h2 : e.cq = []) (h3 : e.discarded = []) :
    ((drain faults (submitAll e ops)).cq).map Result.seq
      = ((submitAll e ops).sq).map Request.seq := by
  rw [drain_cq_map faults (submitAll e ops)
    ((submitAll_discarded ops e).trans h3), submitAll_cq ops e, h2]
  rfl

theorem fifo_completion_witness :
    ((drain (fun _ => none)
        (submitAll sampleEngine [.write [1, 2], .read 2])).cq).map
      Result.seq
      = ((submitAll sampleEngine [.write [1, 2], .read 2]).sq).map
        Request.seq :=
  fifo_completion (fun _ => none) [.write [1, 2], .read 2] sampleEngine
    rfl rfl

/-- C4: writing N bytes via print at an offset and then reading N bytes
from that same offset returns exactly the original bytes; print resolves to
the count of bytes written and read resolves to the bytes read, each
advancing the offset by the bytes transferred. -/
theorem write_read_roundtrip (cap : Nat) (content data : List Nat)
    (offset : Nat)
    (h1 : offset ≤ content.length) (h2 : offset + data.length ≤ cap) :
    (writeCapped cap content offset data).2 = data.length ∧
    readAt (writeCapped cap content offset data).1 offset data.length
      = data ∧
    execOp cap content offset (.write data)
      = (.okCount data.length, (writeCapped cap content offset data).1,
         offset + data.length) ∧
    execOp cap (writeCapped cap content offset data).1 offset
        (.read data.length)
      = (.okBytes data, (writeCapped cap content offset data).1,
         offset + data.length) := by
  have hn : min data.length (cap - offset) = data.length :=
    min_eq_left (Nat.le_sub_of_add_le (by omega))
  have hcount : (writeCapped cap content offset data).2 = data.length := by
    simp [writeCapped, hn]
  have hc : (writeCapped cap content offset data).1
      = content.take offset
        ++ (data ++ content.drop (offset + data.length)) := by
    simp [writeCapped, hn, List.take_of_length_le (le_of_eq rfl)]
  have hlen : (content.take offset).length = offset := by
    rw [List.length_take]
    exact min_eq_left h1
  have hread : readAt (writeCapped cap content offset data).1 offset
      data.length = data := by
    rw [readAt, hc, List.drop_left' hlen, List.take_left' rfl]
  refine ⟨hcount, hread, ?_, ?_⟩
  · show (Outcome.okCount (writeCapped cap content offset data).2,
      (writeCapped cap content offset data).1,
      offset + (writeCapped cap content offset data).2) = _
    rw [hcount]
  · show (Outcome.okBytes (readAt (writeCapped cap content offset data).1
        offset data.length),
      (writeCapped cap content offset data).1,
      offset + (readAt (writeCapped cap content offset data).1 offset
        data.length).length) = _
    rw [hread]

theorem write_read_roundtrip_witness :
    (writeCapped 16 [104, 101, 108, 108, 111] 1 [9, 9]).2 = 2 ∧
    readAt (writeCapped 16 [104, 101, 108, 108, 111] 1 [9, 9]).1 1 2
      = [9, 9] ∧
    execOp 16 [104, 101, 108, 108, 111] 1 (.write [9, 9])
      = (.okCount 2, (writeCapped 16 [104, 101, 108, 108, 111] 1 [9, 9]).1,
         3) ∧
    execOp 16 (writeCapped 16 [104, 101, 108, 108, 111] 1 [9, 9]).1 1
        (.read 2)
      = (.okBytes [9, 9],
         (writeCapped 16 [104, 101, 108, 108, 111] 1 [9, 9]).1, 3) :=
  write_read_roundtrip 16 [104, 101, 108, 108, 111] [9, 9] 1
    (by decide) (by decide)

/-- C5: on an open descriptor the first call to `close` succeeds, moving it
to the closed state, and the second call fails with AlreadyClosed; `close`
is a total function, so no call crashes. -/
theorem close_twice (e : Engine) (h : e.dstate = .opened) :
    close e = .ok { e with dstate := .closedSt } ∧
    close { e with dstate := .closedSt } = .error .alreadyClosed := by
  constructor
  · rw [close, h]
  · rfl

theorem close_twice_witness :
    close sampleEngine = .ok { sampleEngine with dstate := .closedSt } ∧
    close { sampleEngine with dstate := .closedSt }
      = .error .alreadyClosed :=
  close_twice sampleEngine rfl

/-- C6: over the lifetime of a descriptor the sequence numbers of its
submitted Requests are unique and strictly increasing, and each Request
receives exactly one Result, matched to it by sequence number: draining
delivers its sequence number exactly once. -/
theorem seq_numbers_unique_increasing (faults : Nat → Option ErrKind)
    (ops : List OpKind) (e : Engine) (r : Request)
    (h1 : e.sq = []) (h2 : e.cq = []) (h3 : e.discarded = [])
    (hr : r ∈ (submitAll e ops).sq) :
    List.Pairwise (· < ·) (((submitAll e ops).sq).map Request.seq) ∧
    (((drain faults (submitAll e ops)).cq).map Result.seq).count r.seq
      = 1 := by
  have hmap : ((submitAll e ops).sq).map Request.seq
      = List.range' e.nextSeq ops.length := by
    rw [submitAll_sq_map ops e, h1]
    rfl
  have hpair : List.Pairwise (· < ·)
      (((submitAll e ops).sq).map Request.seq) := by
    rw [hmap]
    exact List.pairwise_lt_range' e.nextSeq ops.length
  refine ⟨hpair, ?_⟩
  have hcq : ((drain faults (submitAll e ops)).cq).map Result.seq
      = ((submitAll e ops).sq).map Request.seq := by
    rw [drain_cq_map faults (submitAll e ops)
      ((submitAll_discarded ops e).trans h3), submitAll_cq ops e, h2]
    rfl
  rw [hcq]
  refine List.count_eq_one_of_mem ?_ (List.mem_map_of_mem Request.seq hr)
  rw [hmap]
  exact List.nodup_range' e.nextSeq ops.length

theorem seq_numbers_unique_increasing_witness :
    List.Pairwise (· < ·)
      (((submitAll sampleEngine [.write [1, 2], .read 2]).sq).map
        Request.seq) ∧
    (((drain (fun _ => none)
        (submitAll sampleEngine [.write [1, 2], .read 2])).cq).map
      Result.seq).count (Request.seq ⟨0, .write [1, 2]⟩) = 1 :=
  seq_numbers_unique_increasing (fun _ => none)
    [.write [1, 2], .read 2] sampleEngine ⟨0, .write [1, 2]⟩
    rfl rfl rfl (by decide)

/-- C7: an operation transferring fewer bytes than requested is reported as
a successful Result carrying the smaller count, never as an error: a read
past end of file resolves to the remaining bytes, a write past the device
capacity resolves to the count actually written, and no execution outcome
is an Err. -/
theorem short_transfer_success (cap len : Nat) (content data : List Nat)
    (offset : Nat) (op : OpKind) (k : ErrKind)
    (hr : content.length - offset < len)
    (hw : cap - offset < data.length) :
    (execOp cap content offset (.read len)).1
      = .okBytes (readAt content offset len) ∧
    (readAt content offset len).length = content.length - offset ∧
    (execOp cap content offset (.write data)).1
      = .okCount (cap - offset) ∧
    (execOp cap content offset op).1 ≠ .err k := by
  refine ⟨rfl, ?_, ?_, ?_⟩
  · rw [readAt, List.length_take, List.length_drop]
    exact min_eq_right (le_of_lt hr)
  · show Outcome.okCount (min data.length (cap - offset)) = _
    rw [min_eq_right (le_of_lt hw)]
  · cases op <;> simp [execOp]

theorem short_transfer_success_witness :
    (execOp 4 [1, 2, 3] 1 (.read 10)).1
      = .okBytes (readAt [1, 2, 3] 1 10) ∧
    (readAt [1, 2, 3] 1 10).length = 2 ∧
    (execOp 4 [1, 2, 3] 1 (.write [5, 5, 5, 5, 5, 5])).1 = .okCount 3 ∧
    (execOp 4 [1, 2, 3] 1 (.write [5, 5, 5, 5, 5, 5])).1
      ≠ .err .ioError :=
  short_transfer_success 4 10 [1, 2, 3] [5, 5, 5, 5, 5, 5] 1
    (.write [5, 5, 5, 5, 5, 5]) .ioError (by decide) (by decide)

/-- C8: an `await` whose timeout expires before the Request completes fails
with TimedOut while leaving the submission and completion queues exactly as
the engine left them; if the Request later completes, its Result is
discarded without error: no Result carrying its sequence number is ever
delivered to the completion queue. -/
theorem timeout_leaves_state_intact (faults : Nat → Option ErrKind)
    (e : Engine) (s dur : Nat) (x : Result)
    (h : findResult (drainSteps faults dur e) s = none)
    (hx : x ∈ (drain faults (awaitTimeout faults e s dur).2).cq) :
    (awaitTimeout faults e s dur).1 = .timedOut ∧
    (awaitTimeout faults e s dur).2.sq = (drainSteps faults dur e).sq ∧
    (awaitTimeout faults e s dur).2.cq = (drainSteps faults dur e).cq ∧
    x.seq ≠ s := by
  refine ⟨?_, ?_, ?_, ?_⟩
  · simp [awaitTimeout, h]
  · simp [awaitTimeout, h]
  · simp [awaitTimeout, h]
  · have hcqnone : ∀ y ∈ (drainSteps faults dur e).cq, y.seq ≠ s := by
      intro y hy
      have := List.find?_eq_none.mp h y hy
      simpa using this
    have he2 : (awaitTimeout faults e s dur).2
        = { drainSteps faults dur e with
            discarded := s :: (drainSteps faults dur e).discarded } := by
      simp [awaitTimeout, h]
    have hd2 : s ∈ (awaitTimeout faults e s dur).2.discarded := by
      rw [he2]
      exact List.mem_cons_self s _
    have hcq2 : ∀ y ∈ (awaitTimeout faults e s dur).2.cq, y.seq ≠ s := by
      intro y hy
      rw [he2] at hy
      exact hcqnone y hy
    rw [drain] at hx
    exact discarded_seq_not_in_drainFrom faults s
      ((awaitTimeout faults e s dur).2).sq
      { (awaitTimeout faults e s dur).2 with sq := [] }
      hd2 hcq2 x hx

theorem timeout_leaves_state_intact_witness :
    (awaitTimeout (fun _ => none) sampleE8 0 0).1 = .timedOut ∧
    (awaitTimeout (fun _ => none) sampleE8 0 0).2.sq
      = (drainSteps (fun _ => none) 0 sampleE8).sq ∧
    (awaitTimeout (fun _ => none) sampleE8 0 0).2.cq
      = (drainSteps (fun _ => none) 0 sampleE8).cq ∧
    (⟨1, .okBytes [8]⟩ : Result).seq ≠ 0 :=
  timeout_leaves_state_intact (fun _ => none) sampleE8 0 0
    ⟨1, .okBytes [8]⟩ (by decide) (by decide)

/-- C9: for every argument of any type, `io_uring_open` applied to the
native constructor and the argument is exactly the constructor applied to
the argument: no validation, coercion, or handling of its own, so any
result — success or raised exception — propagates unmodified. -/
theorem io_uring_open_forwards {α β : Type} (ctor : α → β) (x : α) :
    io_uring_open ctor x = ctor x := rfl

/-- C10: `io_uring_open` holds no persistent state and mutates nothing: two
runs with equal arguments make identical calls to the constructor (exactly
one call, with the argument forwarded unchanged), state is threaded only
through the constructor, and with a pure constructor the ambient state is
returned unchanged. -/
theorem io_uring_open_no_state {α σ β : Type} (x₁ x₂ : α)
    (ctor : σ → α → β × σ) (s : σ) (f : α → β) (h : x₁ = x₂) :
    io_uring_open_calls x₁ = io_uring_open_calls x₂ ∧
    io_uring_open_calls x₁ = [WrapperCall.callIOUring x₁] ∧
    io_uring_open_st ctor s x₁ = ctor s x₁ ∧
    (io_uring_open_st (fun st a => (f a, st)) s x₁).2 = s := by
  refine ⟨?_, rfl, rfl, rfl⟩
  rw [h]

theorem io_uring_open_no_state_witness :
    io_uring_open_calls (7 : Nat) = io_uring_open_calls 7 ∧
    io_uring_open_calls (7 : Nat) = [WrapperCall.callIOUring 7] ∧
    io_uring_open_st (fun (st : Nat) (a : Nat) => (a + 1, st + a)) 3 7
      = (fun (st : Nat) (a : Nat) => (a + 1, st + a)) 3 7 ∧
    (io_uring_open_st
      (fun (st : Nat) (a : Nat) => ((fun b : Nat => b * 2) a, st)) 3 7).2
      = 3 :=
  io_uring_open_no_state 7 7 (fun st a => (a + 1, st + a)) 3
    (fun b => b * 2) rfl

end IoUringSpec
